import Mathlib

/-!
Verification development for the reddit-scout data-model layer
(src/reddit_scout/models.py).

The Python module defines four pydantic models (Post, the Config family,
NotificationRecord, ServiceStatus).  Pydantic validates each field against
its Field constraints and custom field validators at construction time and
raises ValidationError on violation; here construction is embedded as a
function returning Except String.  (Pydantic aggregates all field errors
into one ValidationError; the embedding reports the first.  The
success/failure behaviour, which the claims are about, is identical.)

Python ints are embedded as Int (arbitrary precision, no overflow), Python
floats as ℚ (every IEEE-754 double is a rational, indeed a finite decimal
m / 10^k, and the comparisons the validators perform agree with the
rational order), Python lists as List, str as String, None as Option.

model_dump is embedded as an association list in field-declaration order
(Python dicts preserve insertion order); model_dump_json as the compact
serde_json rendering of that list; JSON deserialization (json.loads) as a
recursive-descent parser over the character list.  The parser covers the
scalar fragment (strings with the standard escapes, integers, decimal
numbers) that a Post object serializes to.
-/

namespace RedditScout

/-- Decimal digit character for a value below ten. -/
def digitChar : Nat → Char
  | 0 => '0'
  | 1 => '1'
  | 2 => '2'
  | 3 => '3'
  | 4 => '4'
  | 5 => '5'
  | 6 => '6'
  | 7 => '7'
  | 8 => '8'
  | 9 => '9'
  | _ => '*'

/-- Lower-case hexadecimal digit character for a value below sixteen. -/
def hexChar : Nat → Char
  | 0 => '0'
  | 1 => '1'
  | 2 => '2'
  | 3 => '3'
  | 4 => '4'
  | 5 => '5'
  | 6 => '6'
  | 7 => '7'
  | 8 => '8'
  | 9 => '9'
  | 10 => 'a'
  | 11 => 'b'
  | 12 => 'c'
  | 13 => 'd'
  | 14 => 'e'
  | 15 => 'f'
  | _ => '*'

/-- Value of a hexadecimal digit character, upper or lower case. -/
def hexVal (c : Char) : Option Nat :=
  if c = '0' then some 0
  else if c = '1' then some 1
  else if c = '2' then some 2
  else if c = '3' then some 3
  else if c = '4' then some 4
  else if c = '5' then some 5
  else if c = '6' then some 6
  else if c = '7' then some 7
  else if c = '8' then some 8
  else if c = '9' then some 9
  else if c = 'a' ∨ c = 'A' then some 10
  else if c = 'b' ∨ c = 'B' then some 11
  else if c = 'c' ∨ c = 'C' then some 12
  else if c = 'd' ∨ c = 'D' then some 13
  else if c = 'e' ∨ c = 'E' then some 14
  else if c = 'f' ∨ c = 'F' then some 15
  else none

/-- Numeric value of a big-endian string of decimal digit characters,
accumulated left-to-right exactly as an integer parser reads it. -/
def digitsVal (cs : List Char) : Nat :=
  cs.foldl (fun a c => 10 * a + (c.toNat - 48)) 0

/-- Little-endian decimal digits of a natural number, with explicit fuel so
that the definition is structural and kernel-reducible. -/
def natDigitsLE : Nat → Nat → List Nat
  | 0, _ => []
  | fuel + 1, n => if n = 0 then [] else n % 10 :: natDigitsLE fuel (n / 10)

/-- Little-endian decimal digits of a natural number. -/
def natLE (n : Nat) : List Nat :=
  natDigitsLE n n

/-- Big-endian decimal digit characters of a natural number; zero prints
as the single character 0. -/
def natToChars (n : Nat) : List Char :=
  if n = 0 then ['0'] else ((natLE n).map digitChar).reverse

/-- Pad a digit string on the left with zeros up to width k. -/
def padLeft (k : Nat) (cs : List Char) : List Char :=
  List.replicate (k - cs.length) '0' ++ cs

/-- Multiplicity of p in n (number of times p divides n), with explicit
fuel so that the definition is structural and kernel-reducible. -/
def pmultF : Nat → Nat → Nat → Nat
  | 0, _, _ => 0
  | fuel + 1, p, n => if 2 ≤ p ∧ 0 < n ∧ p ∣ n then pmultF fuel p (n / p) + 1 else 0

/-- Multiplicity of p in n. -/
def pmult (p n : Nat) : Nat :=
  pmultF n p n

/-- The decimal exponent of a rational: the least k with q.den ∣ 10 ^ k
whenever the denominator is of the form 2 ^ a * 5 ^ b. -/
def decExp (q : ℚ) : Nat :=
  max (pmult 2 q.den) (pmult 5 q.den)

/-- A rational has a finite decimal expansion.  Every IEEE-754 double
(Python float) satisfies this: its value is m / 2 ^ e = m * 5 ^ e / 10 ^ e. -/
def IsFiniteDecimal (q : ℚ) : Prop :=
  q.den ∣ 10 ^ decExp q

instance (q : ℚ) : Decidable (IsFiniteDecimal q) := by
  unfold IsFiniteDecimal
  infer_instance

/-- JSON escape of one character, as serde_json (which pydantic's
model_dump_json uses) writes string contents: quote, backslash and the
five short control escapes get two-character escapes, the remaining
control characters a \u00XX escape, and everything else passes through. -/
def escapeChar (c : Char) : List Char :=
  if c = '"' then ['\\', '"']
  else if c = '\\' then ['\\', '\\']
  else if c = '\x08' then ['\\', 'b']
  else if c = '\x09' then ['\\', 't']
  else if c = '\x0a' then ['\\', 'n']
  else if c = '\x0c' then ['\\', 'f']
  else if c = '\x0d' then ['\\', 'r']
  else if c.toNat < 32 then
    ['\\', 'u', '0', '0', hexChar (c.toNat / 16), hexChar (c.toNat % 16)]
  else [c]

/-- JSON escape of a character list. -/
def escapeList : List Char → List Char
  | [] => []
  | c :: cs => escapeChar c ++ escapeList cs

/-- A JSON string literal: quoted, escaped contents. -/
def encStr (s : String) : List Char :=
  '"' :: (escapeList s.data ++ ['"'])

/-- Decimal rendering of an integer. -/
def intChars (n : Int) : List Char :=
  if n < 0 then '-' :: natToChars n.natAbs else natToChars n.toNat

/-- Decimal rendering of a non-negative rational with a finite decimal
expansion, always with a decimal point (floats serialize as 1.0, 0.95, …). -/
def decCharsNonneg (q : ℚ) : List Char :=
  let k := decExp q
  let m := (q.num * ((10 ^ k : Nat) / q.den : Nat)).toNat
  if k = 0 then natToChars m ++ ['.', '0']
  else natToChars (m / 10 ^ k) ++ '.' :: padLeft k (natToChars (m % 10 ^ k))

/-- Decimal rendering of a rational with a finite decimal expansion. -/
def decChars (q : ℚ) : List Char :=
  if q < 0 then '-' :: decCharsNonneg (-q) else decCharsNonneg q

/-- Scalar JSON values as json.loads returns them for the fields of these
models: strings, ints and (float) numbers. -/
inductive JVal : Type
  | jstr : String → JVal
  | jint : Int → JVal
  | jnum : ℚ → JVal
deriving DecidableEq, Repr

/-- Serialization of one scalar JSON value. -/
def serJVal : JVal → List Char
  | .jstr s => encStr s
  | .jint n => intChars n
  | .jnum q => decChars q

/-- Serialization of the members of a JSON object: comma-separated
key:value pairs, compact (no whitespace), as serde_json renders them. -/
def serMembers : List (String × JVal) → List Char
  | [] => []
  | [(k, v)] => encStr k ++ ':' :: serJVal v
  | (k, v) :: kvs => encStr k ++ ':' :: (serJVal v ++ ',' :: serMembers kvs)

/-- Serialization of a flat JSON object. -/
def serObj (kvs : List (String × JVal)) : List Char :=
  '\x7b' :: (serMembers kvs ++ ['\x7d'])

/-- Cons a character onto the pending parsed-string result. -/
def consStr (c : Char) : Option (List Char × List Char) → Option (List Char × List Char)
  | none => none
  | some (cs, rest) => some (c :: cs, rest)

/-- Parse four hex digits into a character code. -/
def hex4 (h1 h2 h3 h4 : Char) : Option Char :=
  match hexVal h1, hexVal h2, hexVal h3, hexVal h4 with
  | some a, some b, some c, some d => some (Char.ofNat (4096 * a + 256 * b + 16 * c + d))
  | _, _, _, _ => none

/-- Parse the body of a JSON string literal (the opening quote already
consumed), handling the standard escapes, up to the closing quote. -/
def parseStrAux : List Char → Option (List Char × List Char)
  | [] => none
  | c :: rest =>
    if c = '"' then some ([], rest)
    else if c = '\\' then
      match rest with
      | [] => none
      | e :: rest2 =>
        if e = '"' then consStr '"' (parseStrAux rest2)
        else if e = '\\' then consStr '\\' (parseStrAux rest2)
        else if e = '/' then consStr '/' (parseStrAux rest2)
        else if e = 'b' then consStr '\x08' (parseStrAux rest2)
        else if e = 't' then consStr '\x09' (parseStrAux rest2)
        else if e = 'n' then consStr '\x0a' (parseStrAux rest2)
        else if e = 'f' then consStr '\x0c' (parseStrAux rest2)
        else if e = 'r' then consStr '\x0d' (parseStrAux rest2)
        else if e = 'u' then
          match rest2 with
          | h1 :: h2 :: h3 :: h4 :: rest3 =>
            match hex4 h1 h2 h3 h4 with
            | some u => consStr u (parseStrAux rest3)
            | none => none
          | _ => none
        else none
    else if c.toNat < 32 then none
    else consStr c (parseStrAux rest)

/-- Parse a JSON string literal, opening quote included. -/
def parseJString : List Char → Option (String × List Char)
  | [] => none
  | c :: rest =>
    if c = '"' then
      match parseStrAux rest with
      | none => none
      | some (cs, r) => some (⟨cs⟩, r)
    else none

/-- Parse an unsigned JSON number: a digit run, optionally followed by a
point and a fractional digit run; an integer literal yields an int and a
decimal literal a float value, exactly as json.loads distinguishes them. -/
def parseNumPos (cs : List Char) : Option (JVal × List Char) :=
  let ds := cs.takeWhile Char.isDigit
  let rest := cs.dropWhile Char.isDigit
  if ds.isEmpty then none
  else
    match rest with
    | [] => some (.jint (digitsVal ds), rest)
    | c :: rest2 =>
      if c = '.' then
        let fs := rest2.takeWhile Char.isDigit
        let rest3 := rest2.dropWhile Char.isDigit
        if fs.isEmpty then none
        else some (.jnum ((digitsVal ds : ℚ) + (digitsVal fs : ℚ) / (10 : ℚ) ^ fs.length), rest3)
      else some (.jint (digitsVal ds), rest)

/-- Negate a numeric JSON value. -/
def negJ : JVal → JVal
  | .jint n => .jint (-n)
  | .jnum q => .jnum (-q)
  | v => v

/-- Parse one scalar JSON value: a string literal or a (signed) number. -/
def parseVal (cs : List Char) : Option (JVal × List Char) :=
  match cs with
  | [] => none
  | c :: rest =>
    if c = '"' then
      match parseStrAux rest with
      | none => none
      | some (s, r) => some (.jstr ⟨s⟩, r)
    else if c = '-' then
      match parseNumPos rest with
      | none => none
      | some (v, r) => some (negJ v, r)
    else parseNumPos cs

/-- Parse the members of a JSON object after the opening brace, up to and
including the closing brace, with fuel bounding the member count. -/
def parseMembersAux : Nat → List Char → Option (List (String × JVal) × List Char)
  | 0, _ => none
  | fuel + 1, cs =>
    match parseJString cs with
    | none => none
    | some (k, r1) =>
      match r1 with
      | [] => none
      | c1 :: r2 =>
        if c1 = ':' then
          match parseVal r2 with
          | none => none
          | some (v, r3) =>
            match r3 with
            | [] => none
            | c2 :: r4 =>
              if c2 = ',' then
                match parseMembersAux fuel r4 with
                | none => none
                | some (kvs, r5) => some ((k, v) :: kvs, r5)
              else if c2 = '\x7d' then some ([(k, v)], r4)
              else none
        else none

/-- Parse a flat JSON object. -/
def parseObj : List Char → Option (List (String × JVal) × List Char)
  | [] => none
  | c :: rest =>
    if c = '\x7b' then
      match rest with
      | [] => none
      | d :: rest2 => if d = '\x7d' then some ([], rest2) else parseMembersAux rest.length rest
    else none

/-- Deserialize a complete JSON document holding one flat object back into
key-value mapping form, the embedding of json.loads on such documents. -/
def jsonParse (s : String) : Option (List (String × JVal)) :=
  match parseObj s.data with
  | some (kvs, []) => some kvs
  | _ => none

/-- A scalar value as this development serializes it: ints are rendered
from their non-negative form here (the models only hold validated
non-negative ints), floats from a finite decimal expansion. -/
def JValGood : JVal → Prop
  | .jstr _ => True
  | .jint n => 0 ≤ n
  | .jnum q => 0 ≤ q ∧ IsFiniteDecimal q

/-- The character after a serialized number must not extend the number. -/
def numBoundary : List Char → Prop
  | [] => True
  | c :: _ => c.isDigit = false ∧ c ≠ '.'

/-- Embedding of the Post pydantic model (models.py lines 14-74): a Reddit
post record.  Field order matches the Python declaration order. -/
structure Post : Type where
  post_id : String
  subreddit : String
  title : String
  url : String
  upvotes : Int
  num_comments : Int
  upvote_ratio : ℚ
  created_utc : String
  permalink : String
deriving DecidableEq, Repr

/-- Embedding of the validate_upvotes field validator (lines 42-48):
rejects a negative upvote count, returns the value unchanged otherwise. -/
def validate_upvotes (v : Int) : Except String Int :=
  if v < 0 then .error "upvotes must be non-negative" else .ok v

/-- Embedding of the validate_upvote_ratio field validator (lines 50-56):
rejects a ratio outside the closed unit interval, returns it otherwise. -/
def validate_upvote_ratio (v : ℚ) : Except String ℚ :=
  if ¬(0 ≤ v ∧ v ≤ 1) then .error "upvote_ratio must be between 0.0 and 1.0"
  else .ok v

/-- Pydantic construction of a Post: the Field constraints (upvotes ge 0,
num_comments ge 0, upvote_ratio ge 0.0 le 1.0) in declaration order, then
the custom field validators; the remaining fields carry no constraints and
are stored as given. -/
def mkPost (post_id subreddit title url : String) (upvotes num_comments : Int)
    (upvote_ratio : ℚ) (created_utc permalink : String) : Except String Post :=
  if upvotes < 0 then .error "upvotes: input should be greater than or equal to 0"
  else if num_comments < 0 then .error "num_comments: input should be greater than or equal to 0"
  else if ¬(0 ≤ upvote_ratio ∧ upvote_ratio ≤ 1) then
    .error "upvote_ratio: input should be in the closed unit interval"
  else
    match validate_upvotes upvotes, validate_upvote_ratio upvote_ratio with
    | .error e, _ => .error e
    | _, .error e => .error e
    | .ok u, .ok r =>
      .ok ⟨post_id, subreddit, title, url, u, num_comments, r, created_utc, permalink⟩

/-- Embedding of Post.to_dict (lines 58-65): model_dump as an association
list in field-declaration order. -/
def Post.to_dict (p : Post) : List (String × JVal) :=
  [("post_id", .jstr p.post_id),
   ("subreddit", .jstr p.subreddit),
   ("title", .jstr p.title),
   ("url", .jstr p.url),
   ("upvotes", .jint p.upvotes),
   ("num_comments", .jint p.num_comments),
   ("upvote_ratio", .jnum p.upvote_ratio),
   ("created_utc", .jstr p.created_utc),
   ("permalink", .jstr p.permalink)]

/-- Embedding of Post.to_json (lines 67-74): model_dump_json, the compact
JSON rendering of the same mapping. -/
def Post.to_json (p : Post) : String :=
  ⟨serObj p.to_dict⟩

/-- Embedding of the RedditConfig model (lines 77-89): three required
string fields, no constraints. -/
structure RedditConfig : Type where
  client_id : String
  client_secret : String
  user_agent : String
deriving DecidableEq, Repr

/-- Construction of a RedditConfig: no field carries a constraint. -/
def mkRedditConfig (client_id client_secret user_agent : String) :
    Except String RedditConfig :=
  .ok ⟨client_id, client_secret, user_agent⟩

/-- Embedding of the MonitoringConfig model (lines 92-114). -/
structure MonitoringConfig : Type where
  subreddits : List String
  check_interval_minutes : Int
  min_upvotes : Int
  min_upvote_ratio : ℚ
deriving DecidableEq, Repr

/-- Construction of a MonitoringConfig: Field constraints
check_interval_minutes gt 0, min_upvotes ge 0, min_upvote_ratio ge 0.0
le 1.0, in declaration order; subreddits carries no constraint. -/
def mkMonitoringConfig (subreddits : List String) (check_interval_minutes min_upvotes : Int)
    (min_upvote_ratio : ℚ) : Except String MonitoringConfig :=
  if ¬(0 < check_interval_minutes) then
    .error "check_interval_minutes: input should be greater than 0"
  else if min_upvotes < 0 then
    .error "min_upvotes: input should be greater than or equal to 0"
  else if ¬(0 ≤ min_upvote_ratio ∧ min_upvote_ratio ≤ 1) then
    .error "min_upvote_ratio: input should be in the closed unit interval"
  else .ok ⟨subreddits, check_interval_minutes, min_upvotes, min_upvote_ratio⟩

/-- Embedding of the NotificationConfig model (lines 117-127): a required
API key and an enabled flag (default true at Python call sites; the
embedding takes it explicitly), no constraints. -/
structure NotificationConfig : Type where
  arcade_api_key : String
  enabled : Bool
deriving DecidableEq, Repr

/-- Construction of a NotificationConfig: no field carries a constraint. -/
def mkNotificationConfig (arcade_api_key : String) (enabled : Bool) :
    Except String NotificationConfig :=
  .ok ⟨arcade_api_key, enabled⟩

/-- Embedding of the aggregate Config model (lines 130-146). -/
structure Config : Type where
  reddit : RedditConfig
  monitoring : MonitoringConfig
  notification : NotificationConfig
deriving DecidableEq, Repr

/-- Construction of a Config from the raw fields of its three sub-configs:
each sub-config validates itself, and the aggregate exists exactly when
all three constructions succeed. -/
def mkConfig (client_id client_secret user_agent : String)
    (subreddits : List String) (check_interval_minutes min_upvotes : Int)
    (min_upvote_ratio : ℚ) (arcade_api_key : String) (enabled : Bool) :
    Except String Config := do
  let r ← mkRedditConfig client_id client_secret user_agent
  let m ← mkMonitoringConfig subreddits check_interval_minutes min_upvotes min_upvote_ratio
  let n ← mkNotificationConfig arcade_api_key enabled
  return ⟨r, m, n⟩

/-- Embedding of the ServiceStatus model (lines 204-287): the daemon's
mutable status aggregate.  Field order matches the Python declaration. -/
structure ServiceStatus : Type where
  is_running : Bool
  last_check_at : Option String
  next_check_at : Option String
  monitored_subreddits : List String
  total_posts_checked : Int
  total_notifications_sent : Int
  errors : List String
  started_at : Option String
deriving DecidableEq, Repr

/-- Construction of a ServiceStatus: the two counters carry Field
constraints ge 0; every other field is stored as given.  (The Python
defaults are running false, counters 0, lists empty, timestamps None.) -/
def mkServiceStatus (is_running : Bool) (last_check_at next_check_at : Option String)
    (monitored_subreddits : List String) (total_posts_checked total_notifications_sent : Int)
    (errors : List String) (started_at : Option String) : Except String ServiceStatus :=
  if total_posts_checked < 0 then
    .error "total_posts_checked: input should be greater than or equal to 0"
  else if total_notifications_sent < 0 then
    .error "total_notifications_sent: input should be greater than or equal to 0"
  else .ok ⟨is_running, last_check_at, next_check_at, monitored_subreddits,
    total_posts_checked, total_notifications_sent, errors, started_at⟩

/-- The default-constructed ServiceStatus (all pydantic defaults). -/
def defaultServiceStatus : ServiceStatus :=
  ⟨false, none, none, [], 0, 0, [], none⟩

/-- Embedding of ServiceStatus.add_error (lines 262-269): append the
message to the error list in place; state passing makes the new state
explicit. -/
def ServiceStatus.add_error (s : ServiceStatus) (error : String) : ServiceStatus :=
  ⟨s.is_running, s.last_check_at, s.next_check_at, s.monitored_subreddits,
   s.total_posts_checked, s.total_notifications_sent, s.errors ++ [error], s.started_at⟩

/-- Embedding of ServiceStatus.increment_posts_checked (lines 271-278):
add count to the counter; no validation is performed on mutation (pydantic
does not re-validate assignments by default), and the Python default for
count is 1 (the embedding takes it explicitly). -/
def ServiceStatus.increment_posts_checked (s : ServiceStatus) (count : Int) : ServiceStatus :=
  ⟨s.is_running, s.last_check_at, s.next_check_at, s.monitored_subreddits,
   s.total_posts_checked + count, s.total_notifications_sent, s.errors, s.started_at⟩

/-- Embedding of ServiceStatus.increment_notifications_sent (lines
280-287): add count to the counter; no validation on mutation, Python
default for count is 1 (the embedding takes it explicitly). -/
def ServiceStatus.increment_notifications_sent (s : ServiceStatus) (count : Int) : ServiceStatus :=
  ⟨s.is_running, s.last_check_at, s.next_check_at, s.monitored_subreddits,
   s.total_posts_checked, s.total_notifications_sent + count, s.errors, s.started_at⟩

/-- A concrete upvote ratio, 0.95, in kernel-reducible form. -/
def q95 : ℚ := ⟨19, 20, by decide, by decide⟩

/-- A concrete upvote ratio, 0.5, in kernel-reducible form. -/
def qHalf : ℚ := ⟨1, 2, by decide, by decide⟩

theorem mkPost_ok (pid sub t url : String) (u nc : Int) (r : ℚ) (cu pl : String)
    (hu : 0 ≤ u) (hnc : 0 ≤ nc) (hr0 : 0 ≤ r) (hr1 : r ≤ 1) :
    mkPost pid sub t url u nc r cu pl = .ok ⟨pid, sub, t, url, u, nc, r, cu, pl⟩ := by
  have h1 : ¬(u < 0) := by omega
  have h2 : ¬(nc < 0) := by omega
  simp [mkPost, validate_upvotes, validate_upvote_ratio, h1, h2, hr0, hr1]

theorem mkPost_ok_inv (pid sub t url : String) (u nc : Int) (r : ℚ) (cu pl : String)
    (p : Post) (hp : mkPost pid sub t url u nc r cu pl = .ok p) :
    p = ⟨pid, sub, t, url, u, nc, r, cu, pl⟩ ∧ 0 ≤ u ∧ 0 ≤ nc ∧ 0 ≤ r ∧ r ≤ 1 := by
  unfold mkPost validate_upvotes validate_upvote_ratio at hp
  split_ifs at hp with h1 h2 h3
  · simp only [Except.ok.injEq] at hp
    push_neg at h3
    exact ⟨hp.symm, by omega, by omega, h3.1, h3.2⟩

theorem mkPost_isOk_iff (pid sub t url : String) (u nc : Int) (r : ℚ) (cu pl : String) :
    (mkPost pid sub t url u nc r cu pl).isOk = true ↔
      (0 ≤ u ∧ 0 ≤ nc ∧ 0 ≤ r ∧ r ≤ 1) := by
  constructor
  · intro h
    rcases hE : mkPost pid sub t url u nc r cu pl with e | p
    · rw [hE] at h
      simp [Except.isOk, Except.toBool] at h
    · exact (mkPost_ok_inv pid sub t url u nc r cu pl p hE).2
  · rintro ⟨hu, hnc, hr0, hr1⟩
    rw [mkPost_ok pid sub t url u nc r cu pl hu hnc hr0 hr1]
    rfl

/-- C1: constructing a Post with a negative upvote count fails with a
validation error, and with a non-negative upvote count (the other fields
satisfying their own constraints) construction succeeds and stores the
upvote count unchanged. -/
theorem postUpvotesValidation (pid sub t url : String) (u nc : Int) (r : ℚ) (cu pl : String) :
    (u < 0 → (mkPost pid sub t url u nc r cu pl).isOk = false) ∧
    (0 ≤ u → 0 ≤ nc → 0 ≤ r → r ≤ 1 →
      ∃ p, mkPost pid sub t url u nc r cu pl = .ok p ∧ p.upvotes = u) := by
  constructor
  · intro hu
    unfold mkPost
    rw [if_pos hu]
    rfl
  · intro hu hnc hr0 hr1
    exact ⟨⟨pid, sub, t, url, u, nc, r, cu, pl⟩, mkPost_ok pid sub t url u nc r cu pl hu hnc hr0 hr1, rfl⟩

theorem postUpvotesValidationWitness :
    (mkPost "abc123" "programming" "Test" "http://x" (-1) 20 q95 "2024-01-01T00:00:00Z" "/r/p/abc").isOk = false ∧
    (∃ p, mkPost "abc123" "programming" "Test" "http://x" 150 20 q95 "2024-01-01T00:00:00Z" "/r/p/abc" = .ok p ∧ p.upvotes = 150) :=
  ⟨(postUpvotesValidation "abc123" "programming" "Test" "http://x" (-1) 20 q95 "2024-01-01T00:00:00Z" "/r/p/abc").1 (by decide),
   (postUpvotesValidation "abc123" "programming" "Test" "http://x" 150 20 q95 "2024-01-01T00:00:00Z" "/r/p/abc").2
     (by decide) (by decide) (by decide) (by decide)⟩

/-- C2: constructing a Post with an upvote ratio outside the closed unit
interval fails with a validation error, and with a ratio inside it (the
other fields satisfying their own constraints) construction succeeds and
stores the ratio unchanged. -/
theorem postRatioValidation (pid sub t url : String) (u nc : Int) (r : ℚ) (cu pl : String) :
    ((r < 0 ∨ 1 < r) → (mkPost pid sub t url u nc r cu pl).isOk = false) ∧
    (0 ≤ r → r ≤ 1 → 0 ≤ u → 0 ≤ nc →
      ∃ p, mkPost pid sub t url u nc r cu pl = .ok p ∧ p.upvote_ratio = r) := by
  constructor
  · intro hr
    rcases h : mkPost pid sub t url u nc r cu pl with e | p
    · rfl
    · have := (mkPost_ok_inv pid sub t url u nc r cu pl p h).2.2.2
      rcases hr with hr | hr
      · exact absurd this.1 (by simpa using not_le.mpr hr)
      · exact absurd this.2 (by simpa using not_le.mpr hr)
  · intro hr0 hr1 hu hnc
    exact ⟨⟨pid, sub, t, url, u, nc, r, cu, pl⟩, mkPost_ok pid sub t url u nc r cu pl hu hnc hr0 hr1, rfl⟩

theorem postRatioValidationWitness :
    (mkPost "abc123" "programming" "Test" "http://x" 150 20 (⟨3, 2, by decide, by decide⟩ : ℚ) "2024-01-01T00:00:00Z" "/r/p/abc").isOk = false ∧
    (∃ p, mkPost "abc123" "programming" "Test" "http://x" 150 20 qHalf "2024-01-01T00:00:00Z" "/r/p/abc" = .ok p ∧ p.upvote_ratio = qHalf) :=
  ⟨(postRatioValidation "abc123" "programming" "Test" "http://x" 150 20 _ "2024-01-01T00:00:00Z" "/r/p/abc").1 (Or.inr (by decide)),
   (postRatioValidation "abc123" "programming" "Test" "http://x" 150 20 qHalf "2024-01-01T00:00:00Z" "/r/p/abc").2
     (by decide) (by decide) (by decide) (by decide)⟩

/-- C4: constructing a Config succeeds exactly when all three sub-config
constructions succeed; on failure the result is an error (no partially
initialised Config value exists), and on success the Config is assembled
exactly from the three successfully constructed sub-configs. -/
theorem configAllOrNothing (ci cs ua : String) (subs : List String) (iv mu : Int) (mr : ℚ)
    (ak : String) (en : Bool) :
    ((mkConfig ci cs ua subs iv mu mr ak en).isOk = true ↔
      ((mkRedditConfig ci cs ua).isOk = true ∧
       (mkMonitoringConfig subs iv mu mr).isOk = true ∧
       (mkNotificationConfig ak en).isOk = true)) ∧
    ((mkConfig ci cs ua subs iv mu mr ak en).isOk = false →
      ∃ e, mkConfig ci cs ua subs iv mu mr ak en = .error e) ∧
    (∀ c, mkConfig ci cs ua subs iv mu mr ak en = .ok c →
      ∃ m, mkMonitoringConfig subs iv mu mr = .ok m ∧
        c = ⟨⟨ci, cs, ua⟩, m, ⟨ak, en⟩⟩) := by
  refine ⟨?_, ?_, ?_⟩
  · rcases hm : mkMonitoringConfig subs iv mu mr with e | m <;>
      simp [mkConfig, mkRedditConfig, mkNotificationConfig, hm, Except.isOk, Except.toBool,
        bind, Except.bind, pure, Except.pure]
  · intro h
    rcases hc : mkConfig ci cs ua subs iv mu mr ak en with e | c
    · exact ⟨e, rfl⟩
    · rw [hc] at h
      simp [Except.isOk, Except.toBool] at h
  · intro c hc
    rcases hm : mkMonitoringConfig subs iv mu mr with e | m <;>
      simp [mkConfig, mkRedditConfig, mkNotificationConfig, hm, bind, Except.bind, pure,
        Except.pure] at hc
    exact ⟨m, rfl, hc.symm⟩

theorem configAllOrNothingWitness :
    ∃ m, mkMonitoringConfig ["programming"] 30 10 qHalf = .ok m ∧
      (⟨⟨"id", "secret", "agent"⟩, ⟨["programming"], 30, 10, qHalf⟩, ⟨"key", true⟩⟩ : Config) =
        ⟨⟨"id", "secret", "agent"⟩, m, ⟨"key", true⟩⟩ :=
  (configAllOrNothing "id" "secret" "agent" ["programming"] 30 10 qHalf "key" true).2.2
    ⟨⟨"id", "secret", "agent"⟩, ⟨["programming"], 30, 10, qHalf⟩, ⟨"key", true⟩⟩ rfl

/-- C5 as stated is false: increment_posts_checked accepts any integer
argument (the code performs no check and pydantic does not re-validate on
assignment), and calling it with -1 on the default status makes the
counter strictly smaller than before and negative. -/
theorem statusCounterDecreaseCounterexample :
    (defaultServiceStatus.increment_posts_checked (-1)).total_posts_checked <
      defaultServiceStatus.total_posts_checked ∧
    (defaultServiceStatus.increment_posts_checked (-1)).total_posts_checked < 0 ∧
    (defaultServiceStatus.increment_notifications_sent (-1)).total_notifications_sent <
      defaultServiceStatus.total_notifications_sent := by
  refine ⟨?_, ?_, ?_⟩ <;> decide

/-- C5 amended: for every call of the two increment operations with a
non-negative argument (as every call with the Python default of 1 is),
the corresponding counter is monotonically non-decreasing, and it stays
non-negative whenever it was non-negative before the call; moreover a
successfully constructed ServiceStatus starts with both counters
non-negative. -/
theorem statusCountersMonotone (s s0 : ServiceStatus) (n m : Int) (hn : 0 ≤ n) (hm : 0 ≤ m)
    (ir : Bool) (lc nc2 : Option String) (ms : List String) (tp tn : Int) (er : List String)
    (st : Option String) (h0 : mkServiceStatus ir lc nc2 ms tp tn er st = .ok s0) :
    s.total_posts_checked ≤ (s.increment_posts_checked n).total_posts_checked ∧
    s.total_notifications_sent ≤ (s.increment_notifications_sent m).total_notifications_sent ∧
    (0 ≤ s.total_posts_checked → 0 ≤ (s.increment_posts_checked n).total_posts_checked) ∧
    (0 ≤ s.total_notifications_sent →
      0 ≤ (s.increment_notifications_sent m).total_notifications_sent) ∧
    (0 ≤ s0.total_posts_checked ∧ 0 ≤ s0.total_notifications_sent) := by
  unfold mkServiceStatus at h0
  split_ifs at h0 with h1 h2
  simp only [Except.ok.injEq] at h0
  subst h0
  refine ⟨?_, ?_, ?_, ?_, ?_, ?_⟩ <;>
    simp [ServiceStatus.increment_posts_checked, ServiceStatus.increment_notifications_sent] <;>
    omega

theorem statusCountersMonotoneWitness :
    defaultServiceStatus.total_posts_checked ≤
      (defaultServiceStatus.increment_posts_checked 1).total_posts_checked ∧
    defaultServiceStatus.total_notifications_sent ≤
      (defaultServiceStatus.increment_notifications_sent 1).total_notifications_sent ∧
    (0 ≤ defaultServiceStatus.total_posts_checked →
      0 ≤ (defaultServiceStatus.increment_posts_checked 1).total_posts_checked) ∧
    (0 ≤ defaultServiceStatus.total_notifications_sent →
      0 ≤ (defaultServiceStatus.increment_notifications_sent 1).total_notifications_sent) ∧
    (0 ≤ defaultServiceStatus.total_posts_checked ∧
      0 ≤ defaultServiceStatus.total_notifications_sent) :=
  statusCountersMonotone defaultServiceStatus defaultServiceStatus 1 1 (by decide) (by decide)
    false none none [] 0 0 [] none rfl

/-- C6 as stated is false: num_comments does carry a Field constraint
(ge 0, models.py line 35), so construction with a negative comment count
fails even though upvotes is non-negative and the ratio is in range. -/
theorem postNegativeCommentsCounterexample :
    (mkPost "abc123" "programming" "Test" "http://x" 150 (-1) q95
      "2024-01-01T00:00:00Z" "/r/programming/abc123").isOk = false := by
  decide

/-- C6 amended: Post construction validates exactly upvotes, num_comments
and upvote_ratio: it succeeds if and only if upvotes >= 0, num_comments
>= 0 and upvote_ratio is in the closed unit interval, and on success every
field — the unvalidated strings post_id, subreddit, title, url,
created_utc, permalink included — is stored exactly as given. -/
theorem postFieldValidation (pid sub t url : String) (u nc : Int) (r : ℚ) (cu pl : String) :
    ((mkPost pid sub t url u nc r cu pl).isOk = true ↔
      (0 ≤ u ∧ 0 ≤ nc ∧ 0 ≤ r ∧ r ≤ 1)) ∧
    (∀ p, mkPost pid sub t url u nc r cu pl = .ok p →
      p = ⟨pid, sub, t, url, u, nc, r, cu, pl⟩) := by
  exact ⟨mkPost_isOk_iff pid sub t url u nc r cu pl,
    fun p hp => (mkPost_ok_inv pid sub t url u nc r cu pl p hp).1⟩

theorem postFieldValidationWitness :
    ((mkPost "a" "s" "t" "u" 1 2 qHalf "c" "l").isOk = true ↔
      (0 ≤ (1 : Int) ∧ 0 ≤ (2 : Int) ∧ 0 ≤ qHalf ∧ qHalf ≤ 1)) ∧
    (⟨"a", "s", "t", "u", 1, 2, qHalf, "c", "l"⟩ : Post) =
      ⟨"a", "s", "t", "u", 1, 2, qHalf, "c", "l"⟩ :=
  ⟨(postFieldValidation "a" "s" "t" "u" 1 2 qHalf "c" "l").1,
   (postFieldValidation "a" "s" "t" "u" 1 2 qHalf "c" "l").2
     ⟨"a", "s", "t", "u", 1, 2, qHalf, "c", "l"⟩ rfl⟩

/-- C7: constructing a MonitoringConfig with check_interval_minutes <= 0
fails with a validation error, and with a positive interval (the other
fields within their declared ranges) construction succeeds. -/
theorem monitoringIntervalValidation (subs : List String) (iv mu : Int) (mr : ℚ) :
    (iv ≤ 0 → (mkMonitoringConfig subs iv mu mr).isOk = false) ∧
    (0 < iv → 0 ≤ mu → 0 ≤ mr → mr ≤ 1 →
      mkMonitoringConfig subs iv mu mr = .ok ⟨subs, iv, mu, mr⟩) := by
  constructor
  · intro hiv
    unfold mkMonitoringConfig
    rw [if_pos (by omega)]
    rfl
  · intro hiv hmu hr0 hr1
    have h2 : ¬(mu < 0) := by omega
    simp [mkMonitoringConfig, hiv, h2, hr0, hr1]

theorem monitoringIntervalValidationWitness :
    (mkMonitoringConfig ["programming"] 0 10 qHalf).isOk = false ∧
    mkMonitoringConfig ["programming"] 30 10 qHalf = .ok ⟨["programming"], 30, 10, qHalf⟩ :=
  ⟨(monitoringIntervalValidation ["programming"] 0 10 qHalf).1 (by decide),
   (monitoringIntervalValidation ["programming"] 30 10 qHalf).2
     (by decide) (by decide) (by decide) (by decide)⟩

/-- C8: calling increment_posts_checked with the same non-negative n twice
in sequence leaves total_posts_checked exactly 2 * n above its value
before the first call. -/
theorem incrementPostsCheckedTwice (s : ServiceStatus) (n : Int) (_hn : 0 ≤ n) :
    ((s.increment_posts_checked n).increment_posts_checked n).total_posts_checked =
      s.total_posts_checked + 2 * n := by
  simp [ServiceStatus.increment_posts_checked]
  ring

theorem incrementPostsCheckedTwiceWitness :
    ((defaultServiceStatus.increment_posts_checked 5).increment_posts_checked 5).total_posts_checked =
      defaultServiceStatus.total_posts_checked + 2 * 5 :=
  incrementPostsCheckedTwice defaultServiceStatus 5 (by decide)

/-- C9: add_error appends: the errors list grows by exactly one element,
its last element is the appended string, and the previous elements are
unchanged in value and order (the new list is the old list with the new
string concatenated at the end). -/
theorem addErrorAppends (s : ServiceStatus) (e : String) :
    (s.add_error e).errors.length = s.errors.length + 1 ∧
    (s.add_error e).errors.getLast? = some e ∧
    (s.add_error e).errors.take s.errors.length = s.errors ∧
    (s.add_error e).errors = s.errors ++ [e] := by
  refine ⟨?_, ?_, ?_, rfl⟩
  · simp [ServiceStatus.add_error]
  · simp [ServiceStatus.add_error]
  · simp [ServiceStatus.add_error, List.take_left]

/-- C10: each ServiceStatus mutator touches only its own field: add_error
changes only errors, increment_posts_checked only total_posts_checked,
increment_notifications_sent only total_notifications_sent; every other
field is returned unchanged. -/
theorem statusMutatorsFrame (s : ServiceStatus) (e : String) (n m : Int) :
    ((s.add_error e).is_running = s.is_running ∧
     (s.add_error e).last_check_at = s.last_check_at ∧
     (s.add_error e).next_check_at = s.next_check_at ∧
     (s.add_error e).monitored_subreddits = s.monitored_subreddits ∧
     (s.add_error e).total_posts_checked = s.total_posts_checked ∧
     (s.add_error e).total_notifications_sent = s.total_notifications_sent ∧
     (s.add_error e).started_at = s.started_at) ∧
    ((s.increment_posts_checked n).is_running = s.is_running ∧
     (s.increment_posts_checked n).last_check_at = s.last_check_at ∧
     (s.increment_posts_checked n).next_check_at = s.next_check_at ∧
     (s.increment_posts_checked n).monitored_subreddits = s.monitored_subreddits ∧
     (s.increment_posts_checked n).total_notifications_sent = s.total_notifications_sent ∧
     (s.increment_posts_checked n).errors = s.errors ∧
     (s.increment_posts_checked n).started_at = s.started_at) ∧
    ((s.increment_notifications_sent m).is_running = s.is_running ∧
     (s.increment_notifications_sent m).last_check_at = s.last_check_at ∧
     (s.increment_notifications_sent m).next_check_at = s.next_check_at ∧
     (s.increment_notifications_sent m).monitored_subreddits = s.monitored_subreddits ∧
     (s.increment_notifications_sent m).total_posts_checked = s.total_posts_checked ∧
     (s.increment_notifications_sent m).errors = s.errors ∧
     (s.increment_notifications_sent m).started_at = s.started_at) :=
  ⟨⟨rfl, rfl, rfl, rfl, rfl, rfl, rfl⟩,
   ⟨rfl, rfl, rfl, rfl, rfl, rfl, rfl⟩,
   ⟨rfl, rfl, rfl, rfl, rfl, rfl, rfl⟩⟩

theorem natDigitsLE_zero (f : Nat) : natDigitsLE f 0 = [] := by
  cases f <;> simp [natDigitsLE]

theorem natDigitsLE_fuel (f : Nat) : ∀ g n, n ≤ f → n ≤ g → natDigitsLE f n = natDigitsLE g n := by
  induction f with
  | zero =>
    intro g n hf _
    have : n = 0 := by omega
    subst this
    rw [natDigitsLE_zero, natDigitsLE_zero]
  | succ f ih =>
    intro g n hf hg
    rcases Nat.eq_zero_or_pos n with rfl | hn
    · rw [natDigitsLE_zero, natDigitsLE_zero]
    · rcases g with _ | g
      · omega
      · have hdiv : n / 10 < n := Nat.div_lt_self hn (by norm_num)
        simp only [natDigitsLE, if_neg (by omega : ¬n = 0)]
        rw [ih g (n / 10) (by omega) (by omega)]

theorem natLE_succ (n : Nat) (hn : n ≠ 0) : natLE n = n % 10 :: natLE (n / 10) := by
  rcases n with _ | m
  · exact absurd rfl hn
  · have hdiv : (m + 1) / 10 < m + 1 := Nat.div_lt_self (by omega) (by norm_num)
    show natDigitsLE (m + 1) (m + 1) = _
    simp only [natDigitsLE, if_neg (by omega : ¬m + 1 = 0)]
    rw [natDigitsLE_fuel m ((m + 1) / 10) ((m + 1) / 10) (by omega) le_rfl]
    rfl

theorem natLE_lt (n : Nat) : ∀ d ∈ natLE n, d < 10 := by
  induction n using Nat.strong_induction_on with
  | _ n ih =>
    rcases Nat.eq_zero_or_pos n with rfl | hn
    · intro d hd
      simp [natLE, natDigitsLE] at hd
    · rw [natLE_succ n (by omega)]
      intro d hd
      rcases List.mem_cons.mp hd with rfl | hd
      · exact Nat.mod_lt _ (by norm_num)
      · exact ih (n / 10) (Nat.div_lt_self hn (by norm_num)) d hd

theorem natLE_foldr (n : Nat) : (natLE n).foldr (fun d a => d + 10 * a) 0 = n := by
  induction n using Nat.strong_induction_on with
  | _ n ih =>
    rcases Nat.eq_zero_or_pos n with rfl | hn
    · simp [natLE, natDigitsLE]
    · rw [natLE_succ n (by omega)]
      simp only [List.foldr_cons]
      rw [ih (n / 10) (Nat.div_lt_self hn (by norm_num))]
      omega

theorem natLE_length (n : Nat) : ∀ k, n < 10 ^ k → (natLE n).length ≤ k := by
  induction n using Nat.strong_induction_on with
  | _ n ih =>
    intro k hk
    rcases Nat.eq_zero_or_pos n with rfl | hn
    · simp [natLE, natDigitsLE]
    · rcases k with _ | k
      · simp at hk
        omega
      · rw [natLE_succ n (by omega)]
        simp only [List.length_cons]
        have hlt : n / 10 < 10 ^ k := by
          rw [Nat.div_lt_iff_lt_mul (by norm_num)]
          calc n < 10 ^ (k + 1) := hk
          _ = 10 ^ k * 10 := by ring
        have := ih (n / 10) (Nat.div_lt_self hn (by norm_num)) k hlt
        omega

theorem digitChar_isDigit (d : Nat) (h : d < 10) : (digitChar d).isDigit = true := by
  interval_cases d <;> decide

theorem digitChar_toNat (d : Nat) (h : d < 10) : (digitChar d).toNat = 48 + d := by
  interval_cases d <;> decide

theorem digitsVal_snoc (xs : List Char) (c : Char) :
    digitsVal (xs ++ [c]) = 10 * digitsVal xs + (c.toNat - 48) := by
  simp [digitsVal, List.foldl_append]

theorem digitsVal_revMap (l : List Nat) (hl : ∀ d ∈ l, d < 10) :
    digitsVal ((l.map digitChar).reverse) = l.foldr (fun d a => d + 10 * a) 0 := by
  induction l with
  | nil => rfl
  | cons d t ih =>
    simp only [List.map_cons, List.reverse_cons, List.foldr_cons]
    rw [digitsVal_snoc, ih (fun x hx => hl x (by simp [hx])),
      digitChar_toNat d (hl d (by simp))]
    omega

theorem digitsVal_natToChars (n : Nat) : digitsVal (natToChars n) = n := by
  unfold natToChars
  split_ifs with h
  · subst h
    decide
  · rw [digitsVal_revMap (natLE n) (natLE_lt n), natLE_foldr]

theorem natToChars_digits (n : Nat) : ∀ c ∈ natToChars n, c.isDigit = true := by
  unfold natToChars
  split_ifs with h
  · intro c hc
    simp only [List.mem_singleton] at hc
    subst hc
    decide
  · intro c hc
    simp only [List.mem_reverse, List.mem_map] at hc
    obtain ⟨d, hd, rfl⟩ := hc
    exact digitChar_isDigit d (natLE_lt n d hd)

theorem natToChars_ne_nil (n : Nat) : natToChars n ≠ [] := by
  unfold natToChars
  split_ifs with h
  · simp
  · simp [natLE_succ n h]

theorem natToChars_length (n k : Nat) (hk : 1 ≤ k) (h : n < 10 ^ k) :
    (natToChars n).length ≤ k := by
  unfold natToChars
  split_ifs with h0
  · simpa using hk
  · simp only [List.length_reverse, List.length_map]
    exact natLE_length n k h

theorem takeWhile_append_all (p : Char → Bool) (l rest : List Char)
    (hl : ∀ c ∈ l, p c = true) (hr : ∀ c t, rest = c :: t → p c = false) :
    (l ++ rest).takeWhile p = l ∧ (l ++ rest).dropWhile p = rest := by
  induction l with
  | nil =>
    simp only [List.nil_append]
    cases rest with
    | nil => simp
    | cons c t => simp [List.takeWhile_cons, List.dropWhile_cons, hr c t rfl]
  | cons a l ih =>
    have ha := hl a (by simp)
    have ihl := ih fun c hc => hl c (by simp [hc])
    simp [List.cons_append, List.takeWhile_cons, List.dropWhile_cons, ha, ihl.1, ihl.2]

theorem hexVal_hexChar (n : Nat) (h : n < 16) : hexVal (hexChar n) = some n := by
  interval_cases n <;> decide

theorem parseStrAux_quote (rest : List Char) : parseStrAux ('"' :: rest) = some ([], rest) := by
  rw [parseStrAux.eq_def]
  rfl

theorem parseStrAux_escQuote (rest : List Char) :
    parseStrAux ('\\' :: '"' :: rest) = consStr '"' (parseStrAux rest) := by
  rw [parseStrAux.eq_def]
  rfl

theorem parseStrAux_escBack (rest : List Char) :
    parseStrAux ('\\' :: '\\' :: rest) = consStr '\\' (parseStrAux rest) := by
  rw [parseStrAux.eq_def]
  rfl

theorem parseStrAux_escB (rest : List Char) :
    parseStrAux ('\\' :: 'b' :: rest) = consStr '\x08' (parseStrAux rest) := by
  rw [parseStrAux.eq_def]
  rfl

theorem parseStrAux_escT (rest : List Char) :
    parseStrAux ('\\' :: 't' :: rest) = consStr '\x09' (parseStrAux rest) := by
  rw [parseStrAux.eq_def]
  rfl

theorem parseStrAux_escN (rest : List Char) :
    parseStrAux ('\\' :: 'n' :: rest) = consStr '\x0a' (parseStrAux rest) := by
  rw [parseStrAux.eq_def]
  rfl

theorem parseStrAux_escF (rest : List Char) :
    parseStrAux ('\\' :: 'f' :: rest) = consStr '\x0c' (parseStrAux rest) := by
  rw [parseStrAux.eq_def]
  rfl

theorem parseStrAux_escR (rest : List Char) :
    parseStrAux ('\\' :: 'r' :: rest) = consStr '\x0d' (parseStrAux rest) := by
  rw [parseStrAux.eq_def]
  rfl

theorem parseStrAux_escU (h1 h2 h3 h4 : Char) (rest : List Char) :
    parseStrAux ('\\' :: 'u' :: h1 :: h2 :: h3 :: h4 :: rest) =
      (match hex4 h1 h2 h3 h4 with
       | some u => consStr u (parseStrAux rest)
       | none => none) := by
  rw [parseStrAux.eq_def]
  rfl

theorem parseStrAux_plain (c : Char) (rest : List Char) (h1 : ¬c = '"') (h2 : ¬c = '\\')
    (h3 : ¬c.toNat < 32) : parseStrAux (c :: rest) = consStr c (parseStrAux rest) := by
  rw [parseStrAux.eq_def]
  simp only [if_neg h1, if_neg h2, if_neg h3]

theorem parseStrAux_escape (cs rest : List Char) :
    parseStrAux (escapeList cs ++ '"' :: rest) = some (cs, rest) := by
  induction cs with
  | nil =>
    show parseStrAux ('"' :: rest) = _
    rw [parseStrAux_quote]
  | cons c t ih =>
    show parseStrAux ((escapeChar c ++ escapeList t) ++ '"' :: rest) = _
    rw [List.append_assoc]
    unfold escapeChar
    split_ifs with h1 h2 h3 h4 h5 h6 h7 h8
    · subst h1
      simp only [List.cons_append, List.nil_append]
      rw [parseStrAux_escQuote, ih]
      rfl
    · subst h2
      simp only [List.cons_append, List.nil_append]
      rw [parseStrAux_escBack, ih]
      rfl
    · subst h3
      simp only [List.cons_append, List.nil_append]
      rw [parseStrAux_escB, ih]
      rfl
    · subst h4
      simp only [List.cons_append, List.nil_append]
      rw [parseStrAux_escT, ih]
      rfl
    · subst h5
      simp only [List.cons_append, List.nil_append]
      rw [parseStrAux_escN, ih]
      rfl
    · subst h6
      simp only [List.cons_append, List.nil_append]
      rw [parseStrAux_escF, ih]
      rfl
    · subst h7
      simp only [List.cons_append, List.nil_append]
      rw [parseStrAux_escR, ih]
      rfl
    · have hhi : c.toNat / 16 < 16 := by omega
      have hlo : c.toNat % 16 < 16 := by omega
      have hx : hex4 '0' '0' (hexChar (c.toNat / 16)) (hexChar (c.toNat % 16)) = some c := by
        unfold hex4
        rw [show hexVal '0' = some 0 from by decide, hexVal_hexChar _ hhi, hexVal_hexChar _ hlo]
        show some (Char.ofNat (4096 * 0 + 256 * 0 + 16 * (c.toNat / 16) + c.toNat % 16)) = some c
        rw [show 4096 * 0 + 256 * 0 + 16 * (c.toNat / 16) + c.toNat % 16 = c.toNat from by omega,
          Char.ofNat_toNat]
      simp only [List.cons_append, List.nil_append]
      rw [parseStrAux_escU, hx, ih]
      rfl
    · simp only [List.cons_append, List.nil_append]
      rw [parseStrAux_plain c _ h1 h2 (by omega), ih]
      rfl

theorem parseJString_enc (k : String) (rest : List Char) :
    parseJString (encStr k ++ rest) = some (k, rest) := by
  simp only [encStr, List.cons_append, List.append_assoc, List.singleton_append]
  rw [parseJString.eq_def]
  dsimp only
  rw [if_pos rfl, parseStrAux_escape]
  dsimp only [List.nil_append]

theorem isDigit_ne_quote (c : Char) (h : c.isDigit = true) : ¬c = '"' := by
  rintro rfl
  exact absurd h (by decide)

theorem isDigit_ne_minus (c : Char) (h : c.isDigit = true) : ¬c = '-' := by
  rintro rfl
  exact absurd h (by decide)

theorem natToChars_isEmpty (n : Nat) : (natToChars n).isEmpty = false := by
  rcases hnc : natToChars n with _ | ⟨c, t⟩
  · exact absurd hnc (natToChars_ne_nil n)
  · rfl

theorem parseNumPos_nat (n : Nat) (rest : List Char)
    (hr : ∀ c t, rest = c :: t → c.isDigit = false ∧ c ≠ '.') :
    parseNumPos (natToChars n ++ rest) = some (.jint (n : Int), rest) := by
  obtain ⟨ht, hd⟩ := takeWhile_append_all Char.isDigit (natToChars n) rest (natToChars_digits n)
    (fun c t h => (hr c t h).1)
  rw [parseNumPos.eq_def]
  simp only [ht, hd, natToChars_isEmpty, Bool.false_eq_true, if_false]
  cases rest with
  | nil =>
    simp [digitsVal_natToChars]
  | cons c t =>
    simp [(hr c t rfl).2, digitsVal_natToChars]

theorem decVal (q : ℚ) (hq : 0 ≤ q) (hfd : IsFiniteDecimal q) :
    ((q.num * ((10 ^ decExp q : Nat) / q.den : Nat)).toNat : ℚ) = q * (10 : ℚ) ^ decExp q := by
  obtain ⟨c, hc⟩ := hfd
  have hnum : 0 ≤ q.num := Rat.num_nonneg.mpr hq
  have hcn : (10 ^ decExp q : ℕ) / q.den = c := by
    rw [hc]
    exact Nat.mul_div_cancel_left c q.den_pos
  have hm0 : 0 ≤ q.num * ((10 ^ decExp q : Nat) / q.den : Nat) :=
    mul_nonneg hnum (by positivity)
  rw [← Int.cast_natCast, Int.toNat_of_nonneg hm0, hcn]
  have h10 : (10 : ℚ) ^ decExp q = (q.den : ℚ) * (c : ℚ) := by
    exact_mod_cast congrArg (fun n : ℕ => (n : ℚ)) hc
  rw [h10]
  calc ((q.num * (c : ℕ) : ℤ) : ℚ) = (q.num : ℚ) * (c : ℚ) := by push_cast; ring
  _ = ((q.num : ℚ) / (q.den : ℚ)) * ((q.den : ℚ) * (c : ℚ)) := by
    have hden0 : (q.den : ℚ) ≠ 0 := Nat.cast_ne_zero.mpr q.den_pos.ne'
    field_simp
    ring
  _ = q * ((q.den : ℚ) * (c : ℚ)) := by rw [Rat.num_div_den]

theorem digitsVal_cons_zero (cs : List Char) : digitsVal ('0' :: cs) = digitsVal cs := by
  show cs.foldl _ (10 * 0 + ('0'.toNat - 48)) = cs.foldl _ 0
  rw [show 10 * 0 + ('0'.toNat - 48) = 0 from by decide]

theorem digitsVal_zeros (j : Nat) (cs : List Char) :
    digitsVal (List.replicate j '0' ++ cs) = digitsVal cs := by
  induction j with
  | zero => rfl
  | succ j ih =>
    rw [show List.replicate (j + 1) '0' ++ cs = '0' :: (List.replicate j '0' ++ cs) from by
      simp [List.replicate_succ]]
    rw [digitsVal_cons_zero]
    exact ih

theorem digitsVal_padLeft (k : Nat) (cs : List Char) :
    digitsVal (padLeft k cs) = digitsVal cs :=
  digitsVal_zeros (k - cs.length) cs

theorem padLeft_all_digits (k : Nat) (cs : List Char) (h : ∀ c ∈ cs, c.isDigit = true) :
    ∀ c ∈ padLeft k cs, c.isDigit = true := by
  intro c hc
  rcases List.mem_append.mp hc with hc | hc
  · rw [List.eq_of_mem_replicate hc]
    decide
  · exact h c hc

theorem padLeft_length (k : Nat) (cs : List Char) (h : cs.length ≤ k) :
    (padLeft k cs).length = k := by
  simp [padLeft]
  omega

theorem isEmpty_false_of_ne_nil (l : List Char) (h : l ≠ []) : l.isEmpty = false := by
  cases l
  · exact absurd rfl h
  · rfl

theorem parseNumPos_dec (q : ℚ) (hq : 0 ≤ q) (hfd : IsFiniteDecimal q) (rest : List Char)
    (hr : ∀ c t, rest = c :: t → c.isDigit = false ∧ c ≠ '.') :
    parseNumPos (decCharsNonneg q ++ rest) = some (.jnum q, rest) := by
  have hmq := decVal q hq hfd
  unfold decCharsNonneg
  by_cases h0 : decExp q = 0
  · rw [if_pos h0]
    rw [List.append_assoc]
    simp only [List.cons_append, List.nil_append]
    obtain ⟨ht, hd⟩ := takeWhile_append_all Char.isDigit
      (natToChars (q.num * ((10 ^ decExp q : Nat) / q.den : Nat)).toNat)
      ('.' :: '0' :: rest) (natToChars_digits _)
      (by
        intro c t h
        injection h with h1 h2
        subst h1
        decide)
    rw [parseNumPos.eq_def]
    simp only [ht, hd, natToChars_isEmpty, Bool.false_eq_true, if_false]
    simp only [if_true]
    obtain ⟨ht2, hd2⟩ := takeWhile_append_all Char.isDigit ['0'] rest
      (by
        intro c hc
        simp only [List.mem_singleton] at hc
        subst hc
        decide)
      (fun c t h => (hr c t h).1)
    simp only [List.singleton_append] at ht2 hd2
    simp only [ht2, hd2]
    rw [if_neg (by decide : ¬(['0'] : List Char).isEmpty = true)]
    have hmv : ((q.num * ((10 ^ decExp q : Nat) / q.den : Nat)).toNat : ℚ) = q := by
      rw [hmq, h0]
      norm_num
    rw [digitsVal_natToChars, show digitsVal ['0'] = 0 from by decide, hmv]
    norm_num
  · rw [if_neg h0]
    rw [List.append_assoc]
    simp only [List.cons_append, List.nil_append]
    obtain ⟨ht, hd⟩ := takeWhile_append_all Char.isDigit
      (natToChars ((q.num * ((10 ^ decExp q : Nat) / q.den : Nat)).toNat / 10 ^ decExp q))
      ('.' :: (padLeft (decExp q) (natToChars ((q.num * ((10 ^ decExp q : Nat) / q.den : Nat)).toNat % 10 ^ decExp q)) ++ rest))
      (natToChars_digits _)
      (by
        intro c t h
        injection h with h1 h2
        subst h1
        decide)
    rw [parseNumPos.eq_def]
    simp only [ht, hd, natToChars_isEmpty, Bool.false_eq_true, if_false]
    simp only [if_true]
    have hlen : (natToChars ((q.num * ((10 ^ decExp q : Nat) / q.den : Nat)).toNat % 10 ^ decExp q)).length ≤ decExp q :=
      natToChars_length _ _ (by omega) (Nat.mod_lt _ (by positivity))
    obtain ⟨ht2, hd2⟩ := takeWhile_append_all Char.isDigit
      (padLeft (decExp q) (natToChars ((q.num * ((10 ^ decExp q : Nat) / q.den : Nat)).toNat % 10 ^ decExp q)))
      rest (padLeft_all_digits _ _ (natToChars_digits _)) (fun c t h => (hr c t h).1)
    simp only [ht2, hd2]
    rw [if_neg (by
      rw [isEmpty_false_of_ne_nil]
      · simp
      · intro hnil
        have := congrArg List.length hnil
        rw [padLeft_length _ _ hlen] at this
        simp at this
        omega)]
    rw [digitsVal_natToChars, digitsVal_padLeft, digitsVal_natToChars, padLeft_length _ _ hlen]
    have hval : (((q.num * ((10 ^ decExp q : Nat) / q.den : Nat)).toNat / 10 ^ decExp q : ℕ) : ℚ) +
        (((q.num * ((10 ^ decExp q : Nat) / q.den : Nat)).toNat % 10 ^ decExp q : ℕ) : ℚ) /
          (10 : ℚ) ^ decExp q = q := by
      have h10 : ((10 : ℚ)) ^ decExp q ≠ 0 := by positivity
      field_simp
      rw [← hmq]
      exact_mod_cast Nat.div_add_mod' ((q.num * ((10 ^ decExp q : Nat) / q.den : Nat)).toNat) (10 ^ decExp q)
    rw [hval]

theorem parseVal_jstr (s : String) (rest : List Char) :
    parseVal (encStr s ++ rest) = some (.jstr s, rest) := by
  simp only [encStr, List.cons_append, List.append_assoc, List.singleton_append]
  rw [parseVal.eq_def]
  dsimp only
  rw [if_pos rfl, parseStrAux_escape]
  dsimp only [List.nil_append]

theorem parseVal_headDigit (c : Char) (t rest : List Char) (hcd : c.isDigit = true) :
    parseVal ((c :: t) ++ rest) = parseNumPos ((c :: t) ++ rest) := by
  simp only [List.cons_append]
  rw [parseVal.eq_def]
  dsimp only
  rw [if_neg (isDigit_ne_quote c hcd), if_neg (isDigit_ne_minus c hcd)]

theorem parseVal_ser (v : JVal) (hv : JValGood v) (rest : List Char)
    (hr : ∀ c t, rest = c :: t → c.isDigit = false ∧ c ≠ '.') :
    parseVal (serJVal v ++ rest) = some (v, rest) := by
  cases v with
  | jstr s => exact parseVal_jstr s rest
  | jint i =>
    have hi : 0 ≤ i := hv
    show parseVal (intChars i ++ rest) = _
    rw [intChars, if_neg (by omega : ¬i < 0)]
    obtain ⟨c, t, hnc⟩ : ∃ c t, natToChars i.toNat = c :: t := by
      rcases h : natToChars i.toNat with _ | ⟨c, t⟩
      · exact absurd h (natToChars_ne_nil _)
      · exact ⟨c, t, rfl⟩
    have hcd : c.isDigit = true := natToChars_digits i.toNat c (by rw [hnc]; exact .head _)
    rw [hnc, parseVal_headDigit c t rest hcd, ← hnc,
      parseNumPos_nat i.toNat rest hr, Int.toNat_of_nonneg hi]
  | jnum q =>
    obtain ⟨hq, hfd⟩ := hv
    show parseVal (decChars q ++ rest) = _
    rw [decChars, if_neg (not_lt.mpr hq)]
    obtain ⟨A, suf, hshape⟩ : ∃ A suf, decCharsNonneg q = natToChars A ++ suf := by
      unfold decCharsNonneg
      dsimp only
      split_ifs
      · exact ⟨_, _, rfl⟩
      · exact ⟨_, _, rfl⟩
    obtain ⟨c, t, hnc⟩ : ∃ c t, natToChars A = c :: t := by
      rcases h : natToChars A with _ | ⟨c, t⟩
      · exact absurd h (natToChars_ne_nil _)
      · exact ⟨c, t, rfl⟩
    have hcd : c.isDigit = true := natToChars_digits A c (by rw [hnc]; exact .head _)
    rw [hshape, hnc, List.cons_append, parseVal_headDigit c (t ++ suf) rest hcd,
      ← List.cons_append, ← hnc, ← hshape]
    exact parseNumPos_dec q hq hfd rest hr

theorem parseMembersAux_ser (kvs : List (String × JVal)) : ∀ fuel rest,
    kvs ≠ [] → kvs.length ≤ fuel → (∀ kv ∈ kvs, JValGood kv.2) →
    parseMembersAux fuel (serMembers kvs ++ '\x7d' :: rest) = some (kvs, rest) := by
  induction kvs with
  | nil =>
    intro fuel rest h _ _
    exact absurd rfl h
  | cons kv kvs ih =>
    rintro fuel rest _ hfuel hgood
    obtain ⟨k, v⟩ := kv
    rcases fuel with _ | fuel
    · simp at hfuel
    cases kvs with
    | nil =>
      show parseMembersAux (fuel + 1) ((encStr k ++ ':' :: serJVal v) ++ '\x7d' :: rest) = _
      simp only [List.append_assoc, List.cons_append]
      rw [parseMembersAux.eq_def]
      dsimp only
      rw [parseJString_enc]
      dsimp only
      rw [if_pos rfl]
      rw [parseVal_ser v (hgood (k, v) (by simp)) ('\x7d' :: rest)
        (by
          intro c t h
          injection h with h1 h2
          subst h1
          exact ⟨by decide, by decide⟩)]
      dsimp only
      rw [if_neg (by decide), if_pos rfl]
    | cons kv2 kvs2 =>
      show parseMembersAux (fuel + 1)
        ((encStr k ++ ':' :: (serJVal v ++ ',' :: serMembers (kv2 :: kvs2))) ++ '\x7d' :: rest) = _
      simp only [List.append_assoc, List.cons_append]
      rw [parseMembersAux.eq_def]
      dsimp only
      rw [parseJString_enc]
      dsimp only
      rw [if_pos rfl]
      rw [parseVal_ser v (hgood (k, v) (by simp)) (',' :: (serMembers (kv2 :: kvs2) ++ '\x7d' :: rest))
        (by
          intro c t h
          injection h with h1 h2
          subst h1
          exact ⟨by decide, by decide⟩)]
      dsimp only
      rw [if_pos rfl]
      rw [ih fuel rest (by simp) (by simp at hfuel ⊢; omega)
        (fun kv hkv => hgood kv (by simp [hkv]))]

theorem serMembers_length (kvs : List (String × JVal)) : kvs.length ≤ (serMembers kvs).length := by
  induction kvs with
  | nil => simp [serMembers]
  | cons kv kvs ih =>
    obtain ⟨k, v⟩ := kv
    cases kvs with
    | nil =>
      simp [serMembers, encStr]
    | cons kv2 kvs2 =>
      simp only [serMembers, encStr, List.length_append, List.length_cons] at ih ⊢
      omega

theorem serMembers_cons (k : String) (v : JVal) (kvs2 : List (String × JVal)) :
    ∃ t, serMembers ((k, v) :: kvs2) = encStr k ++ t := by
  cases kvs2 with
  | nil => exact ⟨':' :: serJVal v, rfl⟩
  | cons kv2 kvs3 => exact ⟨':' :: (serJVal v ++ ',' :: serMembers (kv2 :: kvs3)), rfl⟩

theorem serMembers_cons_head (k : String) (v : JVal) (kvs2 : List (String × JVal)) :
    ∃ X, serMembers ((k, v) :: kvs2) = '"' :: X := by
  obtain ⟨t, ht⟩ := serMembers_cons k v kvs2
  refine ⟨escapeList k.data ++ ['"'] ++ t, ?_⟩
  rw [ht]
  simp [encStr]

theorem jsonParse_serObj (kvs : List (String × JVal)) (hne : kvs ≠ [])
    (hgood : ∀ kv ∈ kvs, JValGood kv.2) :
    jsonParse ⟨serObj kvs⟩ = some kvs := by
  rcases kvs with _ | ⟨⟨k, v⟩, kvs2⟩
  · exact absurd rfl hne
  obtain ⟨X, hX⟩ := serMembers_cons_head k v kvs2
  have hobj : parseObj (serObj ((k, v) :: kvs2)) = some ((k, v) :: kvs2, []) := by
    unfold serObj
    rw [parseObj.eq_def]
    dsimp only
    rw [if_pos rfl, hX]
    simp only [List.cons_append]
    rw [if_neg (by decide)]
    rw [← List.cons_append, ← hX]
    apply parseMembersAux_ser ((k, v) :: kvs2) _ [] (by simp) ?_ hgood
    have h1 := serMembers_length ((k, v) :: kvs2)
    simp only [List.length_append, List.length_cons, List.length_nil] at h1 ⊢
    omega
  unfold jsonParse
  rw [show (String.mk (serObj ((k, v) :: kvs2))).data = serObj ((k, v) :: kvs2) from rfl, hobj]

/-- C3: for every successfully constructed Post p, parsing the JSON string
returned by to_json yields a key-value mapping equal to the one returned
by to_dict (round-trip consistency).  The finite-decimal hypothesis on the
stored upvote ratio holds for every Python float value, since every IEEE
double is a binary fraction and hence a finite decimal. -/
theorem postJsonRoundtrip (pid sub t url : String) (u nc : Int) (r : ℚ) (cu pl : String)
    (p : Post) (hp : mkPost pid sub t url u nc r cu pl = .ok p)
    (hfd : IsFiniteDecimal p.upvote_ratio) :
    jsonParse p.to_json = some p.to_dict := by
  obtain ⟨hpe, hu, hnc, hr0, hr1⟩ := mkPost_ok_inv pid sub t url u nc r cu pl p hp
  subst hpe
  show jsonParse ⟨serObj _⟩ = _
  apply jsonParse_serObj
  · simp [Post.to_dict]
  · intro kv hkv
    simp only [Post.to_dict, List.mem_cons, List.not_mem_nil, or_false] at hkv
    rcases hkv with rfl | rfl | rfl | rfl | rfl | rfl | rfl | rfl | rfl
    · trivial
    · trivial
    · trivial
    · trivial
    · exact hu
    · exact hnc
    · exact ⟨hr0, hfd⟩
    · trivial
    · trivial

theorem postJsonRoundtripWitness :
    jsonParse (Post.to_json ⟨"abc123", "programming", "Test", "http://x", 150, 20, q95,
      "2024-01-01T00:00:00Z", "/r/programming/abc123"⟩) =
    some (Post.to_dict ⟨"abc123", "programming", "Test", "http://x", 150, 20, q95,
      "2024-01-01T00:00:00Z", "/r/programming/abc123"⟩) :=
  postJsonRoundtrip "abc123" "programming" "Test" "http://x" 150 20 q95
    "2024-01-01T00:00:00Z" "/r/programming/abc123" _ rfl (by decide)

end RedditScout
